import Mathlib

/-!
Verification of the 1-D kernel density estimation notebook
(`_posts/scikit/1D-kernel-density-estimation/kde-1d.ipynb`).

The notebook samples a two-component Gaussian mixture, fits
`sklearn.neighbors.KernelDensity` estimators with various kernels and
bandwidths, evaluates them on fixed grids, and renders three plotly
figures.  We embed the notebook's data-building glue shallowly:

* Python float arithmetic (binary64, round to nearest, ties to even) is
  modelled exactly on dyadic rationals for the sample-size computations
  `0.3 * N` and `0.7 * N`;
* the sequence of `KernelDensity(...)` constructor calls is modelled as a
  list of records of the arguments literally passed;
* figures, traces, subplot titles and annotations are modelled as plain
  records of the arrays and strings handed to the plotting calls;
* random sampling is modelled by threading an abstract deterministic
  generator state, exactly as `numpy.random`'s global `RandomState`
  behaves: `np.random.seed` resets the state, each draw advances it;
* the density mathematics (`score_samples`, `scipy.stats.norm.pdf`) is
  embedded over `ℝ` with `Real.exp` / `Real.log`.
-/

namespace KDE1D

/-! ## Binary64 arithmetic for the sample-size computation

The notebook computes component sample sizes as `0.3 * N` and `0.7 * N`
in Python float arithmetic and passes the (float-valued) results to
`np.random.normal`, which truncates them to integers (emitting a
`VisibleDeprecationWarning`).  We model IEEE-754 binary64 rounding of a
positive rational value `a / b` exactly (round to nearest, ties to even,
53-bit significand); the values involved are small positive numbers, so
signs, overflow and subnormals cannot occur.  A float is represented as
a pair `(m, e)` of significand and binary exponent, with value
`m * 2 ^ e`. -/

/-- Structural computation of `⌊log₂ n⌋` (the first argument is fuel,
halving terminates within `n` steps). -/
def log2Aux : ℕ → ℕ → ℕ
  | 0, _ => 0
  | fuel + 1, n => if 2 ≤ n then log2Aux fuel (n / 2) + 1 else 0

/-- `⌊log₂ n⌋` for `n ≥ 1` (and `0` at `0`). -/
def nlog2 (n : ℕ) : ℕ := log2Aux n n

/-- `2 ^ c ≤ a / b`, decided in integer arithmetic. -/
def pow2Le (c : ℤ) (a b : ℕ) : Bool :=
  if 0 ≤ c then b * 2 ^ c.toNat ≤ a else b ≤ a * 2 ^ (-c).toNat

/-- `⌊log₂ (a / b)⌋` for positive naturals `a`, `b`, computed from the
bit lengths of numerator and denominator and corrected by comparison. -/
def floorLog2 (a b : ℕ) : ℤ :=
  let c : ℤ := (nlog2 a : ℤ) - (nlog2 b : ℤ)
  if pow2Le (c + 1) a b then c + 1
  else if pow2Le c a b then c
  else c - 1

/-- Round the fraction `p / q` to the nearest natural number, ties to
even. -/
def roundNearestTiesEven (p q : ℕ) : ℕ :=
  let f := p / q
  let r := p % q
  if 2 * r < q then f
  else if q < 2 * r then f + 1
  else if f % 2 = 0 then f else f + 1

/-- Round the positive rational `a / b` to the nearest IEEE-754 binary64
value, returned as a significand–exponent pair `(m, e)` with value
`m * 2 ^ e` and `2 ^ 52 ≤ m ≤ 2 ^ 53`. -/
def fl (a b : ℕ) : ℕ × ℤ :=
  let e : ℤ := floorLog2 a b - 52
  let p : ℕ := a * 2 ^ (max 0 (-e)).toNat
  let q : ℕ := b * 2 ^ (max 0 e).toNat
  (roundNearestTiesEven p q, e)

/-- The value of a nonnegative binary64 number as a rational. -/
def floatVal (x : ℕ × ℤ) : ℚ := (x.1 : ℚ) * (2:ℚ) ^ x.2

/-- The Python float literal `0.3`. -/
def lit03 : ℕ × ℤ := fl 3 10

/-- The Python float literal `0.7`. -/
def lit07 : ℕ × ℤ := fl 7 10

/-- The Python float of a small natural number (conversion is exact
below `2 ^ 53`). -/
def floatOfNat (n : ℕ) : ℕ × ℤ := fl n 1

/-- Python float multiplication of nonnegative binary64 values:
multiply the dyadic values exactly, then round. -/
def floatMul (x y : ℕ × ℤ) : ℕ × ℤ :=
  let e : ℤ := x.2 + y.2
  fl (x.1 * y.1 * 2 ^ (max 0 e).toNat) (2 ^ (max 0 (-e)).toNat)

/-- `np.random.normal`'s legacy conversion of a non-negative float size
argument to an integer count (truncation toward zero, which on
nonnegative values is the floor). -/
def npSizeArg (x : ℕ × ℤ) : ℕ :=
  if 0 ≤ x.2 then x.1 * 2 ^ x.2.toNat else x.1 / 2 ^ (-x.2).toNat

/-- Size of the first mixture component's sample:
`np.random.normal(0, 1, 0.3 * N)`. -/
def sampleSize1 (N : ℕ) : ℕ := npSizeArg (floatMul lit03 (floatOfNat N))

/-- Size of the second mixture component's sample:
`np.random.normal(5, 1, 0.7 * N)`. -/
def sampleSize2 (N : ℕ) : ℕ := npSizeArg (floatMul lit07 (floatOfNat N))

/-- Number of rows of the concatenated sample array
`X = np.concatenate((np.random.normal(0, 1, 0.3*N),
np.random.normal(5, 1, 0.7*N)))[:, np.newaxis]`. -/
def sampleLen (N : ℕ) : ℕ := sampleSize1 N + sampleSize2 N

/-! ## The `KernelDensity(...)` constructor calls

Each record holds the arguments literally passed at one call site; a
bandwidth that is not passed is `none` (sklearn then uses its default,
`bandwidth=1.0`).  Bandwidth literals are binary64 values. -/

structure KDEArgs where
  kernel : String
  bandwidth : Option (ℕ × ℤ)
  deriving DecidableEq

/-- The kernel list iterated over in the second (gallery) figure, which
is also the tuple of subplot titles passed to `make_subplots`. -/
def galleryKernels : List String :=
  ["gaussian", "tophat", "epanechnikov", "exponential", "linear", "cosine"]

/-- The kernel list iterated over in the third figure. -/
def fig3Kernels : List String := ["gaussian", "tophat", "epanechnikov"]

/-- First figure:
`KernelDensity(kernel='tophat', bandwidth=0.75)` then
`KernelDensity(kernel='gaussian', bandwidth=0.75)`. -/
def fig1Calls : List KDEArgs :=
  [⟨"tophat", some (fl 3 4)⟩, ⟨"gaussian", some (fl 3 4)⟩]

/-- Gallery figure: `KernelDensity(kernel=kernel)` for each of the six
kernels — no bandwidth argument. -/
def galleryCalls : List KDEArgs :=
  galleryKernels.map (fun k => ⟨k, none⟩)

/-- Third figure: `KernelDensity(kernel=kernel, bandwidth=0.5)` for each
of the three kernels. -/
def fig3Calls : List KDEArgs :=
  fig3Kernels.map (fun k => ⟨k, some (fl 1 2)⟩)

/-- All `KernelDensity(...)` invocations of the notebook, in order. -/
def kdeCalls : List KDEArgs := fig1Calls ++ galleryCalls ++ fig3Calls

/-! ## The gallery figure's subplot grid -/

/-- A plotly figure made with `tools.make_subplots`, recording the grid
shape, the subplot-title tuple, and for every `append_trace` call the
kernel whose density estimate the trace plots together with the `(row,
col)` arguments passed. -/
structure GridFigure where
  rows : ℕ
  cols : ℕ
  subplotTitles : List String
  tracePlacements : List (String × ℕ × ℕ)

/-- The gallery figure: `make_subplots(rows=2, cols=3, subplot_titles=
('gaussian', ..., 'cosine'))`, then for `i, kernel` in
`enumerate([...])` the trace of kernel `kernel` is appended at row
`i/3+1`, column `i%3+1` (Python 2 integer division). -/
def galleryFig : GridFigure :=
  { rows := 2
    cols := 3
    subplotTitles := ["gaussian", "tophat", "epanechnikov",
                      "exponential", "linear", "cosine"]
    tracePlacements :=
      galleryKernels.enum.map (fun p => (p.2, p.1 / 3 + 1, p.1 % 3 + 1)) }

/-- The title `make_subplots` gives the subplot at (1-based) row `r`,
column `c`: titles are laid out row-major. -/
def titleAt (f : GridFigure) (r c : ℕ) : String :=
  f.subplotTitles.getD ((r - 1) * f.cols + (c - 1)) ""

/-! ## The third figure's annotation -/

/-- Python `str.format` substitution of the single positional argument
into every occurrence of `{0}` in the template. -/
def substArg : List Char → List Char → List Char
  | [], _ => []
  | '\x7b' :: '0' :: '\x7d' :: rest, arg => arg ++ substArg rest arg
  | c :: rest, arg => c :: substArg rest arg

/-- `template.format(arg)` for a single positional argument. -/
def pyFormat1 (template arg : String) : String :=
  ⟨substArg template.data arg.data⟩

/-- The value assigned to `N` in the third figure's cell. -/
def fig3N : ℕ := 100

/-- The annotation text `"N={0} points".format(N)`. -/
def annotationText (n : ℕ) : String :=
  pyFormat1 "N=\x7b0\x7d points" (Nat.repr n)

/-- A plotly annotation `dict(x=..., y=..., showarrow=..., text=...)`. -/
structure Annotation where
  x : ℚ
  y : ℚ
  showarrow : Bool
  text : String

/-- The third figure's layout annotations:
`annotations=[dict(x=6, y=0.38, showarrow=False,
text="N={0} points".format(N))]`. -/
def fig3Annotations : List Annotation :=
  [⟨6, 38/100, false, annotationText fig3N⟩]

/-! ## The notebook's rendered output -/

/-- The three figures the notebook builds. -/
inductive Chart where
  | fig1
  | gallery
  | fig3
  deriving DecidableEq

/-- Something a code cell displays: a plotly chart via `py.iplot`, or an
HTML snippet via `display(HTML(...))`. -/
inductive OutputEvent where
  | chart : Chart → OutputEvent
  | htmlDisplay : OutputEvent
  deriving DecidableEq

/-- The display events of the notebook's code cells, in order: the
version cell and import cell emit nothing; the first-figure cell ends in
`py.iplot(fig)`; the gallery-building cell emits nothing and the next
cell is `py.iplot(fig)`; the third-figure-building cell emits nothing
and the next cell is `py.iplot(fig)`; the license/publisher cell emits
two `display(HTML(...))` snippets. -/
def cellOutputs : List (List OutputEvent) :=
  [[], [],
   [OutputEvent.chart Chart.fig1],
   [], [OutputEvent.chart Chart.gallery],
   [], [OutputEvent.chart Chart.fig3],
   [OutputEvent.htmlDisplay, OutputEvent.htmlDisplay]]

/-- The charts the notebook emits, in order. -/
def chartsEmitted : List Chart :=
  cellOutputs.flatten.filterMap (fun e =>
    match e with
    | OutputEvent.chart c => some c
    | OutputEvent.htmlDisplay => none)

/-! ## Random sampling

`numpy.random`'s global generator is a deterministic automaton: `seed`
resets its state from the given integer, and every draw is a pure
function of the state that also advances it.  The generator internals
live in numpy, outside this repository, so we model them by an abstract
state type `S` with a seeding function and one step function per draw
kind; everything the notebook does with the generator is embedded as
explicit state passing. -/

structure NumpyGen (S : Type) where
  seedFn : ℕ → S
  normalStep : S → ℚ × S
  uniformStep : S → ℚ × S

/-- `np.random.normal(mean, std, size)`: `size` standard-normal draws,
each shifted and scaled, threading the generator state. -/
def npNormalDraws {S : Type} (g : NumpyGen S) (mean std : ℚ) :
    ℕ → S → List ℚ × S
  | 0, s => ([], s)
  | n + 1, s =>
    let z := g.normalStep s
    let rest := npNormalDraws g mean std n z.2
    ((mean + std * z.1) :: rest.1, rest.2)

/-- `np.random.random(size)`: `size` uniform draws, threading the
generator state. -/
def npRandomDraws {S : Type} (g : NumpyGen S) :
    ℕ → S → List ℚ × S
  | 0, s => ([], s)
  | n + 1, s =>
    let u := g.uniformStep s
    let rest := npRandomDraws g n u.2
    (u.1 :: rest.1, rest.2)

/-- The mixture sample
`X = np.concatenate((np.random.normal(0, 1, 0.3 * N),
np.random.normal(5, 1, 0.7 * N)))[:, np.newaxis]`, flattened back to
its only column. -/
def mixSample {S : Type} (g : NumpyGen S) (N : ℕ) (s : S) :
    List ℚ × S :=
  let a := npNormalDraws g 0 1 (sampleSize1 N) s
  let b := npNormalDraws g 5 1 (sampleSize2 N) a.2
  (a.1 ++ b.1, b.2)

/-- First figure's sampling cell: `np.random.seed(1)` (discarding the
incoming generator state) followed by the `N = 20` mixture sample. -/
def fig1Sampling {S : Type} (g : NumpyGen S) (_sIn : S) : List ℚ × S :=
  mixSample g 20 (g.seedFn 1)

/-- Third figure's sampling cell: `np.random.seed(1)` (discarding the
incoming generator state) followed by the `N = 100` mixture sample. -/
def fig3Sampling {S : Type} (g : NumpyGen S) (_sIn : S) : List ℚ × S :=
  mixSample g 100 (g.seedFn 1)

/-- The rug-marker y-offsets of the third figure:
`-0.005 - 0.01 * np.random.random(X.shape[0])`. -/
def fig3RugOffsets {S : Type} (g : NumpyGen S) (numRows : ℕ) (s : S) :
    List ℚ × S :=
  let u := npRandomDraws g numRows s
  (u.1.map (fun r => -(5/1000) - (1/100) * r), u.2)

/-- All random data the notebook generates, run from an arbitrary
initial generator state: the first figure's sample, the third figure's
sample, and the third figure's rug offsets, with the state threaded
through in notebook order. -/
def notebookSamples {S : Type} (g : NumpyGen S) (s0 : S) :
    List ℚ × List ℚ × List ℚ :=
  let f1 := fig1Sampling g s0
  let f3 := fig3Sampling g f1.2
  let rug := fig3RugOffsets g f3.1.length f3.2
  (f1.1, f3.1, rug.1)

/-- A trivial generator on the unit state, used to instantiate the
generic sampling statements. -/
def unitGen : NumpyGen Unit :=
  ⟨fun _ => (), fun _ => (0, ()), fun _ => (0, ())⟩

/-- One mixture component of the sampling step: weight as a literal
fraction, mean, and standard deviation. -/
structure MixComponent where
  wNum : ℕ
  wDen : ℕ
  mean : ℤ
  std : ℕ
  deriving DecidableEq

/-- The two components the sampling lines draw from:
`np.random.normal(0, 1, 0.3 * N)` and `np.random.normal(5, 1, 0.7 * N)`. -/
def sampleMixture : List MixComponent := [⟨3, 10, 0, 1⟩, ⟨7, 10, 5, 1⟩]

/-- Sampling driven by an explicit mixture-component list: for each
component, `⌊weight * N⌋` draws (through the float model) from the
normal distribution with that component's mean and standard deviation.
Used to state that the literal sampling code is exactly the
`sampleMixture`-driven sampler. -/
def mixtureSample {S : Type} (g : NumpyGen S) :
    List MixComponent → ℕ → S → List ℚ × S
  | [], _, s => ([], s)
  | c :: cs, N, s =>
    let a := npNormalDraws g (c.mean : ℚ) (c.std : ℚ)
      (npSizeArg (floatMul (fl c.wNum c.wDen) (floatOfNat N))) s
    let rest := mixtureSample g cs N a.2
    (a.1 ++ rest.1, rest.2)

/-! ## Density mathematics over `ℝ`

`sklearn.neighbors.KernelDensity` and `scipy.stats.norm` are external
libraries; we embed the real functions they compute.  For kernel `K`
with bandwidth `h` fitted on points `xᵢ`, `score_samples` returns
`log((1/n) Σᵢ (1/h) K((x - xᵢ)/h))` with `K` the sklearn-normalised
kernel profile (each profile integrates to 1 over `ℝ`). -/

open Real

noncomputable section RealDensity

/-- The six sklearn kernel profiles, normalised to unit mass. -/
def kernelFun : String → ℝ → ℝ
  | "gaussian" => fun u => Real.exp (-(u ^ 2) / 2) / Real.sqrt (2 * π)
  | "tophat" => fun u => if |u| ≤ 1 then 1 / 2 else 0
  | "epanechnikov" => fun u => if |u| ≤ 1 then 3 / 4 * (1 - u ^ 2) else 0
  | "exponential" => fun u => Real.exp (-|u|) / 2
  | "linear" => fun u => if |u| ≤ 1 then 1 - |u| else 0
  | "cosine" => fun u => if |u| ≤ 1 then π / 4 * Real.cos (π * u / 2) else 0
  | _ => fun _ => 0

/-- The density a fitted `KernelDensity(kernel, bandwidth=h)` estimates
at `x`: the mean over the data of the bandwidth-scaled kernel. -/
def kdeDensity (kern : String) (h : ℝ) (data : List ℝ) (x : ℝ) : ℝ :=
  (data.map (fun xi => kernelFun kern ((x - xi) / h) / h)).sum / data.length

/-- `score_samples` at one point: the log-density. -/
def scoreSample (kern : String) (h : ℝ) (data : List ℝ) (x : ℝ) : ℝ :=
  Real.log (kdeDensity kern h data x)

/-- One plotted density value: `np.exp(log_dens)` at one grid point. -/
def densityY (kern : String) (h : ℝ) (data : List ℝ) (x : ℝ) : ℝ :=
  Real.exp (scoreSample kern h data x)

/-- `np.linspace(start, stop, num)` (for `num ≥ 2`), as the column
`X_plot[:, 0]`. -/
def linspace (start stop : ℝ) (num : ℕ) : List ℝ :=
  (List.range num).map
    (fun i : ℕ => start + (stop - start) * (i : ℝ) / ((num : ℝ) - 1))

/-- The grid `np.linspace(-5, 10, 1000)` of the first figure. -/
def fig1Grid : List ℝ := linspace (-5) 10 1000

/-- The grid `np.linspace(-6, 6, 1000)` of the gallery figure. -/
def galleryGrid : List ℝ := linspace (-6) 6 1000

/-- The grid `np.linspace(-5, 10, 1000)` of the third figure. -/
def fig3Grid : List ℝ := linspace (-5) 10 1000

/-- `scipy.stats.norm(mu, sigma).pdf(x)`. -/
def normPdf (mu sigma x : ℝ) : ℝ :=
  Real.exp (-((x - mu) ^ 2) / (2 * sigma ^ 2)) / (sigma * Real.sqrt (2 * π))

/-- The third figure's reference curve
`true_dens = 0.3 * norm(0, 1).pdf(X_plot[:, 0])
+ 0.7 * norm(5, 1).pdf(X_plot[:, 0])`, at one grid point. -/
def trueDens (x : ℝ) : ℝ :=
  3 / 10 * normPdf 0 1 x + 7 / 10 * normPdf 5 1 x

/-! ## Scatter traces -/

/-- A `go.Scatter(...)` trace: its x array, its y array, and its legend
name when one is passed. -/
structure Scatter where
  x : List ℝ
  y : List ℝ
  name : Option String

/-- A density trace
`go.Scatter(x=X_plot[:, 0], y=np.exp(log_dens), ...)`. -/
def densityTrace (kern : String) (h : ℝ) (data : List ℝ)
    (grid : List ℝ) (nm : Option String) : Scatter :=
  { x := grid, y := grid.map (densityY kern h data), name := nm }

/-- The first figure's two density traces (tophat and gaussian KDE,
bandwidth `0.75`, fitted on the `N = 20` sample). -/
def fig1DensityTraces {S : Type} (g : NumpyGen S) (s0 : S) : List Scatter :=
  let X : List ℝ := (fig1Sampling g s0).1.map (fun q : ℚ => (q : ℝ))
  [densityTrace "tophat" (3/4) X fig1Grid none,
   densityTrace "gaussian" (3/4) X fig1Grid none]

/-- The gallery figure's six traces: each kernel fitted on
`X_src = np.zeros((1, 1))` with sklearn's default bandwidth `1.0`
(no bandwidth argument is passed). -/
def galleryTraces : List Scatter :=
  galleryKernels.map (fun k => densityTrace k 1 [0] galleryGrid none)

/-- The legend name `"kernel = '{0}'".format(kernel)`. -/
def kernelLegend (kern : String) : String :=
  pyFormat1 "kernel = \x27\x7b0\x7d\x27" kern

/-- The third figure's rug-marker trace
`go.Scatter(x=X[:, 0], y=-0.005 - 0.01*np.random.random(X.shape[0]),
mode='markers', ...)`. -/
def fig3RugTrace {S : Type} (g : NumpyGen S) (sIn : S) : Scatter :=
  let f3 := fig3Sampling g sIn
  { x := f3.1.map (fun q : ℚ => (q : ℝ))
    y := (fig3RugOffsets g f3.1.length f3.2).1.map (fun q : ℚ => (q : ℝ))
    name := none }

/-- The third figure's `data` list: the true-density trace, one density
trace per kernel (bandwidth `0.5`), then the rug-marker trace. -/
def fig3Traces {S : Type} (g : NumpyGen S) (sIn : S) : List Scatter :=
  let X : List ℝ := (fig3Sampling g sIn).1.map (fun q : ℚ => (q : ℝ))
  [{ x := fig3Grid, y := fig3Grid.map trueDens,
     name := some "input distribution" }]
  ++ fig3Kernels.map (fun k =>
       densityTrace k (1/2) X fig3Grid (some (kernelLegend k)))
  ++ [fig3RugTrace g sIn]

end RealDensity

/-! # Helper lemmas -/

theorem length_npNormalDraws {S : Type} (g : NumpyGen S) (mean std : ℚ) :
    ∀ (n : ℕ) (s : S), ((npNormalDraws g mean std n s).1).length = n
  | 0, _ => rfl
  | n + 1, s => by
    simp only [npNormalDraws, List.length_cons,
      length_npNormalDraws g mean std n]

theorem length_npRandomDraws {S : Type} (g : NumpyGen S) :
    ∀ (n : ℕ) (s : S), ((npRandomDraws g n s).1).length = n
  | 0, _ => rfl
  | n + 1, s => by
    simp only [npRandomDraws, List.length_cons, length_npRandomDraws g n]

theorem length_mixSample {S : Type} (g : NumpyGen S) (N : ℕ) (s : S) :
    ((mixSample g N s).1).length = sampleLen N := by
  simp [mixSample, sampleLen, length_npNormalDraws]

set_option maxRecDepth 4000 in
theorem sampleSizes_20 : sampleSize1 20 = 6 ∧ sampleSize2 20 = 14 := by
  decide

set_option maxRecDepth 4000 in
theorem sampleSizes_100 : sampleSize1 100 = 30 ∧ sampleSize2 100 = 70 := by
  decide

theorem length_fig1Sampling {S : Type} (g : NumpyGen S) (s : S) :
    ((fig1Sampling g s).1).length = 20 := by
  rw [fig1Sampling, length_mixSample]
  show sampleSize1 20 + sampleSize2 20 = 20
  rw [sampleSizes_20.1, sampleSizes_20.2]

theorem length_fig3Sampling {S : Type} (g : NumpyGen S) (s : S) :
    ((fig3Sampling g s).1).length = 100 := by
  rw [fig3Sampling, length_mixSample]
  show sampleSize1 100 + sampleSize2 100 = 100
  rw [sampleSizes_100.1, sampleSizes_100.2]

theorem length_linspace (a b : ℝ) (n : ℕ) : (linspace a b n).length = n := by
  rw [linspace, List.length_map, List.length_range]

theorem getD_map_nonneg {α : Type} (f : α → ℝ) (hf : ∀ x, 0 ≤ f x) :
    ∀ (l : List α) (i : ℕ), 0 ≤ (l.map f).getD i 0
  | [], _ => le_refl 0
  | a :: _, 0 => hf a
  | _ :: l, i + 1 => getD_map_nonneg f hf l i

theorem densityTrace_getD_nonneg (kern : String) (h : ℝ) (data : List ℝ)
    (grid : List ℝ) (nm : Option String) (i : ℕ) :
    0 ≤ (densityTrace kern h data grid nm).y.getD i 0 :=
  getD_map_nonneg _ (fun _ => (Real.exp_pos _).le) grid i

/-! # Claim theorems -/

/-- C1: for the two sampling figures (`N = 20` and `N = 100`), the
per-component sample counts `0.3 * N` and `0.7 * N` are computed in
float arithmetic and truncated by `np.random.normal`, giving 6 and 14
draws for `N = 20` and 30 and 70 draws for `N = 100`; the concatenated
sample array `X` therefore has exactly `N` rows in both figures. -/
theorem c1_sample_length :
    (sampleSize1 20 = 6 ∧ sampleSize2 20 = 14 ∧ sampleLen 20 = 20) ∧
    (sampleSize1 100 = 30 ∧ sampleSize2 100 = 70 ∧ sampleLen 100 = 100) ∧
    (∀ (S : Type) (g : NumpyGen S) (s : S),
      ((fig1Sampling g s).1).length = 20 ∧
      ((fig3Sampling g s).1).length = 100) := by
  refine ⟨⟨sampleSizes_20.1, sampleSizes_20.2, ?_⟩,
    ⟨sampleSizes_100.1, sampleSizes_100.2, ?_⟩, ?_⟩
  · show sampleSize1 20 + sampleSize2 20 = 20
    rw [sampleSizes_20.1, sampleSizes_20.2]
  · show sampleSize1 100 + sampleSize2 100 = 100
    rw [sampleSizes_100.1, sampleSizes_100.2]
  · intro S g s
    constructor
    · rw [fig1Sampling, length_mixSample]
      show sampleSize1 20 + sampleSize2 20 = 20
      rw [sampleSizes_20.1, sampleSizes_20.2]
    · rw [fig3Sampling, length_mixSample]
      show sampleSize1 100 + sampleSize2 100 = 100
      rw [sampleSizes_100.1, sampleSizes_100.2]

/-- C2 fails as stated: the gallery cell's estimator calls are
`KernelDensity(kernel=kernel)` with no bandwidth argument; concretely,
the third invocation of the notebook (the gallery's first) is
`KernelDensity(kernel='gaussian')` with `bandwidth = none`. -/
theorem c2_counterexample :
    kdeCalls.getD 2 ⟨"", none⟩ = ⟨"gaussian", none⟩ ∧
    ¬ (∀ c ∈ kdeCalls, c.bandwidth.isSome = true) := by
  decide

/-- C2 amended: every invocation supplies a kernel name (always one of
the six sklearn kernel names); the first figure's calls pass
`bandwidth=0.75` and the third figure's calls pass `bandwidth=0.5`, but
the six gallery calls pass no bandwidth argument at all (sklearn's
default `1.0` then applies). -/
theorem c2_amended :
    (∀ c ∈ fig1Calls, c.bandwidth = some (fl 3 4)) ∧
    (∀ c ∈ fig3Calls, c.bandwidth = some (fl 1 2)) ∧
    (∀ c ∈ galleryCalls, c.bandwidth = none) ∧
    (∀ c ∈ kdeCalls, c.kernel ∈ galleryKernels) ∧
    galleryCalls.length = 6 := by
  decide

/-- Witness for the amended C2 at the first call of the notebook. -/
theorem c2_amended_witness :
    (⟨"tophat", some (fl 3 4)⟩ : KDEArgs) ∈ fig1Calls ∧
    (⟨"tophat", some (fl 3 4)⟩ : KDEArgs).bandwidth = some (fl 3 4) :=
  ⟨by decide, c2_amended.1 _ (by decide)⟩

/-- C4: the gallery figure is a 2×3 grid with the six literal kernel
names as subplot titles, and for every index `i < 6` the trace appended
at row `i/3+1`, column `i%3+1` is the density estimate of the kernel
that titles that subplot. -/
theorem c4_gallery_grid :
    galleryFig.rows = 2 ∧ galleryFig.cols = 3 ∧
    galleryFig.subplotTitles =
      ["gaussian", "tophat", "epanechnikov",
       "exponential", "linear", "cosine"] ∧
    galleryFig.tracePlacements.length = 6 ∧
    (∀ i, i < 6 →
      galleryFig.tracePlacements.getD i ("", 0, 0) =
        (titleAt galleryFig (i / 3 + 1) (i % 3 + 1),
         i / 3 + 1, i % 3 + 1)) := by
  decide

/-- Witness for C4 at `i = 3`: the fourth trace (kernel
`'exponential'`) sits at row 2, column 1, which is the subplot titled
`'exponential'`. -/
theorem c4_gallery_grid_witness :
    galleryFig.tracePlacements.getD 3 ("", 0, 0) =
      (titleAt galleryFig 2 1, 2, 1) :=
  c4_gallery_grid.2.2.2.2 3 (by decide)

/-- C6: with `N = 100`, formatting `N` into the template
`"N={0} points"` yields exactly `"N=100 points"`, and that string is the
text of the third figure's single layout annotation. -/
theorem c6_annotation_text :
    fig3N = 100 ∧
    annotationText fig3N = "N=100 points" ∧
    fig3Annotations.map Annotation.text = ["N=100 points"] := by
  refine ⟨rfl, by decide, by decide⟩

/-- C7: `np.random.seed(1)` runs immediately before each sampling step,
so all random data of the notebook is a function of the fixed seed
alone: two runs from arbitrary (and arbitrarily different) initial
generator states produce identical samples for both sampling figures,
and each figure's `X` equals the mixture sample taken from the freshly
seeded state. -/
theorem c7_deterministic_sampling :
    ∀ (S : Type) (g : NumpyGen S) (s s' : S),
      notebookSamples g s = notebookSamples g s' ∧
      (fig1Sampling g s).1 = (mixSample g 20 (g.seedFn 1)).1 ∧
      (fig3Sampling g s).1 = (mixSample g 100 (g.seedFn 1)).1 := by
  intro S g s s'
  exact ⟨rfl, rfl, rfl⟩

/-- C8: exactly three charts are rendered — one `py.iplot` call per
figure, in notebook order, and nothing else emits a chart. -/
theorem c8_three_charts :
    chartsEmitted = [Chart.fig1, Chart.gallery, Chart.fig3] ∧
    chartsEmitted.length = 3 := by
  decide

/-- C10: the third figure's reference curve `true_dens` is pointwise
the mixture density with weights 0.3 and 0.7, means 0 and 5, and unit
standard deviations — exactly the components the sampling code draws
from (the literal sampling code is the `sampleMixture`-driven sampler) —
and the weights sum to 1. -/
theorem c10_true_density_matches_mixture :
    (∀ x : ℝ, trueDens x =
      (sampleMixture.map (fun c =>
        (c.wNum : ℝ) / (c.wDen : ℝ) *
          normPdf (c.mean : ℝ) (c.std : ℝ) x)).sum) ∧
    ((sampleMixture.map (fun c => (c.wNum : ℚ) / (c.wDen : ℚ))).sum = 1) ∧
    (∀ (S : Type) (g : NumpyGen S) (N : ℕ) (s : S),
      mixSample g N s = mixtureSample g sampleMixture N s) := by
  refine ⟨?_, by norm_num [sampleMixture], ?_⟩
  · intro x
    simp [trueDens, sampleMixture]
  · intro S g N s
    simp [mixSample, mixtureSample, sampleMixture,
      sampleSize1, sampleSize2, lit03, lit07]

/-- C3: in each of the three figures, each kernel's plotted density
curve is `np.exp` of the `score_samples` log-density, so every y-value
of every density trace is non-negative (any out-of-range index reads the
default `0`, which is also non-negative). -/
theorem c3_curves_nonneg :
    ∀ (S : Type) (g : NumpyGen S) (s0 sIn : S),
      (∀ t ∈ fig1DensityTraces g s0, ∀ i : ℕ, 0 ≤ t.y.getD i 0) ∧
      (∀ t ∈ galleryTraces, ∀ i : ℕ, 0 ≤ t.y.getD i 0) ∧
      (∀ k ∈ fig3Kernels, ∀ i : ℕ,
        0 ≤ (densityTrace k (1/2)
              ((fig3Sampling g sIn).1.map (fun q : ℚ => (q : ℝ)))
              fig3Grid (some (kernelLegend k))).y.getD i 0) := by
  intro S g s0 sIn
  refine ⟨?_, ?_, ?_⟩
  · intro t ht i
    simp only [fig1DensityTraces, List.mem_cons, List.not_mem_nil,
      or_false] at ht
    rcases ht with rfl | rfl
    · exact densityTrace_getD_nonneg _ _ _ _ _ i
    · exact densityTrace_getD_nonneg _ _ _ _ _ i
  · intro t ht i
    obtain ⟨k, -, rfl⟩ := List.mem_map.mp ht
    exact densityTrace_getD_nonneg _ _ _ _ _ i
  · intro k _ i
    exact densityTrace_getD_nonneg _ _ _ _ _ i

/-- Witness for C3 at the gallery's gaussian trace, first grid point. -/
theorem c3_curves_nonneg_witness :
    0 ≤ (densityTrace "gaussian" 1 [0] galleryGrid none).y.getD 0 0 :=
  ((c3_curves_nonneg Unit unitGen () ()).2.1 _
    (List.mem_map.mpr ⟨"gaussian", by simp [galleryKernels], rfl⟩)) 0

/-- C9: every scatter trace pairs x and y arrays of equal length: the
plotting grids have 1000 points; each density trace's x is its figure's
grid and its y has the same length; every trace of the third figure's
data list has matching x/y lengths; and the rug trace pairs the 100
sample points with exactly 100 random offsets. -/
theorem c9_trace_shapes :
    ∀ (S : Type) (g : NumpyGen S) (s0 sIn : S),
      fig1Grid.length = 1000 ∧ galleryGrid.length = 1000 ∧
      fig3Grid.length = 1000 ∧
      (∀ t ∈ fig1DensityTraces g s0,
        t.x = fig1Grid ∧ t.y.length = t.x.length) ∧
      (∀ t ∈ galleryTraces,
        t.x = galleryGrid ∧ t.y.length = t.x.length) ∧
      (∀ t ∈ fig3Traces g sIn, t.x.length = t.y.length) ∧
      (fig3RugTrace g sIn).x.length = 100 ∧
      (fig3RugTrace g sIn).y.length = 100 := by
  intro S g s0 sIn
  have hx : ((fig3Sampling g sIn).1).length = 100 := length_fig3Sampling g sIn
  have hrugx : (fig3RugTrace g sIn).x.length = 100 := by
    simp only [fig3RugTrace, List.length_map]
    exact hx
  have hrugy : (fig3RugTrace g sIn).y.length = 100 := by
    simp only [fig3RugTrace, fig3RugOffsets, List.length_map,
      length_npRandomDraws]
    exact hx
  refine ⟨length_linspace _ _ _, length_linspace _ _ _,
    length_linspace _ _ _, ?_, ?_, ?_, hrugx, hrugy⟩
  · intro t ht
    simp only [fig1DensityTraces, List.mem_cons, List.not_mem_nil,
      or_false] at ht
    rcases ht with rfl | rfl <;> simp [densityTrace]
  · intro t ht
    obtain ⟨k, -, rfl⟩ := List.mem_map.mp ht
    simp [densityTrace]
  · intro t ht
    simp only [fig3Traces, List.mem_append, List.mem_cons,
      List.not_mem_nil, or_false, List.mem_map] at ht
    rcases ht with (rfl | ⟨k, -, rfl⟩) | rfl
    · simp
    · simp [densityTrace]
    · rw [hrugx, hrugy]

/-! # Integral of the estimated density (C5)

`score_samples` exponentiates to the kernel mixture density, so the
plotted curve integrates over the plotting range to the total kernel
mass inside the (rescaled) range.  We show each sklearn kernel profile
has unit mass on `ℝ`, bound its mass outside the standardised plotting
window, and transport the bounds through bandwidth scaling and the data
average. -/

open MeasureTheory Set intervalIntegral

theorem kernelFun_gaussian :
    kernelFun "gaussian" = fun u => exp (-(u ^ 2) / 2) / Real.sqrt (2 * π) :=
  rfl

theorem kernelFun_tophat :
    kernelFun "tophat" = fun u : ℝ => if |u| ≤ 1 then 1 / 2 else 0 :=
  rfl

theorem kernelFun_epanechnikov :
    kernelFun "epanechnikov" =
      fun u : ℝ => if |u| ≤ 1 then 3 / 4 * (1 - u ^ 2) else 0 :=
  rfl

theorem kernelFun_exponential :
    kernelFun "exponential" = fun u : ℝ => exp (-|u|) / 2 :=
  rfl

theorem kernelFun_linear :
    kernelFun "linear" = fun u : ℝ => if |u| ≤ 1 then 1 - |u| else 0 :=
  rfl

theorem kernelFun_cosine :
    kernelFun "cosine" =
      fun u : ℝ => if |u| ≤ 1 then π / 4 * Real.cos (π * u / 2) else 0 :=
  rfl

theorem gaussK_nonneg (u : ℝ) : 0 ≤ kernelFun "gaussian" u := by
  simp only [kernelFun_gaussian]
  positivity

theorem expK_nonneg (u : ℝ) : 0 ≤ kernelFun "exponential" u := by
  simp only [kernelFun_exponential]
  positivity

theorem two_le_sqrt_two_pi : (2 : ℝ) ≤ Real.sqrt (2 * π) := by
  have h4 : (4 : ℝ) ≤ 2 * π := by nlinarith [Real.pi_gt_three]
  have h := Real.sqrt_le_sqrt h4
  rwa [show Real.sqrt 4 = 2 by
    rw [show (4 : ℝ) = 2 ^ 2 by norm_num, Real.sqrt_sq (by norm_num)]] at h

theorem hundred_le_exp_five : (100 : ℝ) ≤ exp 5 := by
  have h1 : (2.7 : ℝ) ≤ exp 1 := by
    have := Real.exp_one_gt_d9
    linarith
  have h2 : (2.7 : ℝ) ^ 5 ≤ exp 1 ^ 5 := pow_le_pow_left₀ (by norm_num) h1 5
  have h3 : exp 5 = exp 1 ^ 5 := by
    rw [show (5 : ℝ) = (5 : ℕ) * (1 : ℝ) by norm_num, Real.exp_nat_mul]
  rw [h3]
  nlinarith

theorem tophat_eq_indicator :
    kernelFun "tophat" =
      (Icc (-1 : ℝ) 1).indicator (fun _ => (1 / 2 : ℝ)) := by
  funext u
  simp only [kernelFun_tophat, Set.indicator_apply, Set.mem_Icc, abs_le]

theorem epanechnikov_eq_indicator :
    kernelFun "epanechnikov" =
      (Icc (-1 : ℝ) 1).indicator (fun u => 3 / 4 * (1 - u ^ 2)) := by
  funext u
  simp only [kernelFun_epanechnikov, Set.indicator_apply, Set.mem_Icc, abs_le]

theorem linear_eq_indicator :
    kernelFun "linear" =
      (Icc (-1 : ℝ) 1).indicator (fun u => 1 - |u|) := by
  funext u
  simp only [kernelFun_linear, Set.indicator_apply, Set.mem_Icc, abs_le]

theorem cosine_eq_indicator :
    kernelFun "cosine" =
      (Icc (-1 : ℝ) 1).indicator (fun u => π / 4 * Real.cos (π * u / 2)) := by
  funext u
  simp only [kernelFun_cosine, Set.indicator_apply, Set.mem_Icc, abs_le]

theorem integrable_gaussK : Integrable (kernelFun "gaussian") := by
  rw [kernelFun_gaussian]
  have h := integrable_exp_neg_mul_sq (show (0 : ℝ) < 1 / 2 by norm_num)
  have h2 : (fun u : ℝ => exp (-(1 / 2) * u ^ 2) / Real.sqrt (2 * π)) =
      fun u : ℝ => exp (-(u ^ 2) / 2) / Real.sqrt (2 * π) := by
    funext u
    congr 2
    ring
  exact h2 ▸ h.div_const _

theorem integrable_expK : Integrable (kernelFun "exponential") := by
  rw [kernelFun_exponential]
  have hIic : IntegrableOn (fun u : ℝ => exp (-|u|) / 2) (Iic 0) := by
    have h0 : IntegrableOn (fun u : ℝ => exp u / 2) (Iic 0) :=
      (integrableOn_exp_Iic 0).div_const 2
    refine h0.congr_fun ?_ measurableSet_Iic
    intro u hu
    show exp u / 2 = exp (-|u|) / 2
    rw [abs_of_nonpos (mem_Iic.mp hu), neg_neg]
  have hIoi : IntegrableOn (fun u : ℝ => exp (-|u|) / 2) (Ioi 0) := by
    have h0 : IntegrableOn (fun u : ℝ => exp (-1 * u) / 2) (Ioi 0) :=
      (exp_neg_integrableOn_Ioi 0 one_pos).div_const 2
    refine h0.congr_fun ?_ measurableSet_Ioi
    intro u hu
    show exp (-1 * u) / 2 = exp (-|u|) / 2
    rw [neg_one_mul, abs_of_pos (mem_Ioi.mp hu)]
  have h := hIic.union hIoi
  rwa [Iic_union_Ioi, integrableOn_univ] at h

theorem integrable_tophatK : Integrable (kernelFun "tophat") := by
  rw [tophat_eq_indicator, integrable_indicator_iff measurableSet_Icc]
  exact integrableOn_const.mpr (Or.inr measure_Icc_lt_top)

theorem integrable_epanechnikovK : Integrable (kernelFun "epanechnikov") := by
  rw [epanechnikov_eq_indicator, integrable_indicator_iff measurableSet_Icc]
  exact (Continuous.integrableOn_Icc (by continuity))

theorem integrable_linearK : Integrable (kernelFun "linear") := by
  rw [linear_eq_indicator, integrable_indicator_iff measurableSet_Icc]
  exact (Continuous.integrableOn_Icc (by continuity))

theorem integrable_cosineK : Integrable (kernelFun "cosine") := by
  rw [cosine_eq_indicator, integrable_indicator_iff measurableSet_Icc]
  exact (Continuous.integrableOn_Icc (by continuity))

theorem total_gaussK : ∫ u, kernelFun "gaussian" u = 1 := by
  rw [kernelFun_gaussian]
  rw [MeasureTheory.integral_div]
  rw [show (fun u : ℝ => exp (-(u ^ 2) / 2)) =
      fun u : ℝ => exp (-(1 / 2) * u ^ 2) by
    funext u
    congr 1
    ring]
  rw [integral_gaussian, show π / (1 / 2 : ℝ) = 2 * π by ring]
  exact div_self (Real.sqrt_ne_zero'.mpr (by positivity))

theorem total_expK : ∫ u, kernelFun "exponential" u = 1 := by
  rw [kernelFun_exponential]
  rw [@integral_comp_abs (fun t => exp (-t) / 2)]
  rw [MeasureTheory.integral_div, integral_exp_neg_Ioi_zero]
  norm_num

theorem total_tophatK : ∫ u, kernelFun "tophat" u = 1 := by
  rw [tophat_eq_indicator, MeasureTheory.integral_indicator measurableSet_Icc,
    integral_Icc_eq_integral_Ioc,
    ← intervalIntegral.integral_of_le (show (-1 : ℝ) ≤ 1 by norm_num)]
  simp
  norm_num

theorem total_epanechnikovK : ∫ u, kernelFun "epanechnikov" u = 1 := by
  rw [epanechnikov_eq_indicator,
    MeasureTheory.integral_indicator measurableSet_Icc,
    integral_Icc_eq_integral_Ioc,
    ← intervalIntegral.integral_of_le (show (-1 : ℝ) ≤ 1 by norm_num)]
  rw [intervalIntegral.integral_const_mul]
  rw [intervalIntegral.integral_sub intervalIntegrable_const
    (intervalIntegrable_pow 2)]
  rw [integral_one, integral_pow]
  norm_num

theorem total_linearK : ∫ u, kernelFun "linear" u = 1 := by
  rw [linear_eq_indicator,
    MeasureTheory.integral_indicator measurableSet_Icc,
    integral_Icc_eq_integral_Ioc,
    ← intervalIntegral.integral_of_le (show (-1 : ℝ) ≤ 1 by norm_num)]
  have hii : ∀ (a b : ℝ),
      IntervalIntegrable (fun u : ℝ => 1 - |u|) volume a b :=
    fun a b => (continuous_const.sub continuous_abs).intervalIntegrable a b
  rw [← intervalIntegral.integral_add_adjacent_intervals
    (hii (-1) 0) (hii 0 1)]
  have hL : (∫ u in (-1 : ℝ)..0, 1 - |u|) = ∫ u in (-1 : ℝ)..0, 1 + u := by
    apply intervalIntegral.integral_congr
    intro u hu
    rw [Set.uIcc_of_le (show (-1 : ℝ) ≤ 0 by norm_num)] at hu
    show 1 - |u| = 1 + u
    rw [abs_of_nonpos hu.2]
    ring
  have hR : (∫ u in (0 : ℝ)..1, 1 - |u|) = ∫ u in (0 : ℝ)..1, 1 - u := by
    apply intervalIntegral.integral_congr
    intro u hu
    rw [Set.uIcc_of_le (show (0 : ℝ) ≤ 1 by norm_num)] at hu
    show 1 - |u| = 1 - u
    rw [abs_of_nonneg hu.1]
  rw [hL, hR]
  rw [intervalIntegral.integral_add intervalIntegrable_const
    intervalIntegrable_id]
  rw [intervalIntegral.integral_sub intervalIntegrable_const
    intervalIntegrable_id]
  rw [integral_one, integral_one, integral_id, integral_id]
  norm_num

theorem total_cosineK : ∫ u, kernelFun "cosine" u = 1 := by
  rw [cosine_eq_indicator,
    MeasureTheory.integral_indicator measurableSet_Icc,
    integral_Icc_eq_integral_Ioc,
    ← intervalIntegral.integral_of_le (show (-1 : ℝ) ≤ 1 by norm_num)]
  rw [intervalIntegral.integral_const_mul]
  rw [show (fun u : ℝ => Real.cos (π * u / 2)) =
      fun u : ℝ => Real.cos (π / 2 * u) by
    funext u
    congr 1
    ring]
  rw [intervalIntegral.integral_comp_mul_left Real.cos
    (show π / 2 ≠ 0 by positivity)]
  rw [integral_cos]
  rw [mul_one, mul_neg_one, Real.sin_pi_div_two, Real.sin_neg,
    Real.sin_pi_div_two]
  rw [smul_eq_mul]
  field_simp
  ring

theorem support_subset_Icc (kern : String)
    (hk : kern ∈ (["tophat", "epanechnikov", "linear", "cosine"] :
      List String)) :
    Function.support (kernelFun kern) ⊆ Icc (-1 : ℝ) 1 := by
  fin_cases hk
  · rw [tophat_eq_indicator]
    exact Set.support_indicator_subset
  · rw [epanechnikov_eq_indicator]
    exact Set.support_indicator_subset
  · rw [linear_eq_indicator]
    exact Set.support_indicator_subset
  · rw [cosine_eq_indicator]
    exact Set.support_indicator_subset

theorem compact_window (kern : String)
    (hk : kern ∈ (["tophat", "epanechnikov", "linear", "cosine"] :
      List String))
    (a b : ℝ) (ha : a < -1) (hb : 1 ≤ b) :
    ∫ u in a..b, kernelFun kern u = 1 := by
  have hsub : Function.support (kernelFun kern) ⊆ Ioc a b := by
    refine (support_subset_Icc kern hk).trans ?_
    intro u hu
    exact ⟨lt_of_lt_of_le ha hu.1, le_trans hu.2 hb⟩
  rw [integral_eq_integral_of_support_subset hsub]
  fin_cases hk
  exacts [total_tophatK, total_epanechnikovK, total_linearK, total_cosineK]

theorem gauss_tail_Ioi (b : ℝ) (hb : 10 / 3 ≤ b) :
    ∫ u in Ioi b, kernelFun "gaussian" u ≤ exp (-(50 / 9)) / 2 := by
  have hint : IntegrableOn (kernelFun "gaussian") (Ioi b) :=
    integrable_gaussK.integrableOn
  have h1 : IntegrableOn (fun u : ℝ => exp (-u)) (Ioi b) := by
    refine (exp_neg_integrableOn_Ioi b one_pos).congr_fun ?_ measurableSet_Ioi
    intro u _
    show exp (-1 * u) = exp (-u)
    rw [neg_one_mul]
  have hbint : IntegrableOn
      (fun u : ℝ => exp (-(50 / 9)) * exp (10 / 3 - u) / Real.sqrt (2 * π))
      (Ioi b) := by
    have h2 : IntegrableOn (fun u : ℝ => exp (10 / 3) * exp (-u)) (Ioi b) :=
      h1.const_mul _
    have h3 : IntegrableOn (fun u : ℝ => exp (10 / 3 - u)) (Ioi b) := by
      refine h2.congr_fun ?_ measurableSet_Ioi
      intro u _
      show exp (10 / 3) * exp (-u) = exp (10 / 3 - u)
      rw [← Real.exp_add]
      ring_nf
    exact (h3.const_mul _).div_const _
  have hmono : ∫ u in Ioi b, kernelFun "gaussian" u ≤
      ∫ u in Ioi b, exp (-(50 / 9)) * exp (10 / 3 - u) / Real.sqrt (2 * π) := by
    refine setIntegral_mono_on hint hbint measurableSet_Ioi ?_
    intro u hu
    have hu4 : (10 / 3 : ℝ) ≤ u := le_trans hb (le_of_lt (mem_Ioi.mp hu))
    simp only [kernelFun_gaussian]
    gcongr
    rw [← Real.exp_add]
    refine Real.exp_le_exp.mpr ?_
    nlinarith [mul_nonneg (show (0 : ℝ) ≤ 3 * u - 10 by linarith)
      (show (0 : ℝ) ≤ 3 * u + 4 by linarith)]
  have hval : (∫ u in Ioi b, exp (10 / 3 - u)) = exp (10 / 3 - b) := by
    have h4 : (∫ u in Ioi b, exp (10 / 3 - u)) =
        ∫ u in Ioi b, exp (10 / 3) * exp (-u) := by
      refine setIntegral_congr_fun measurableSet_Ioi ?_
      intro u _
      show exp (10 / 3 - u) = exp (10 / 3) * exp (-u)
      rw [← Real.exp_add]
      ring_nf
    rw [h4, MeasureTheory.integral_mul_left, integral_exp_neg_Ioi,
      ← Real.exp_add]
    ring_nf
  rw [MeasureTheory.integral_div, MeasureTheory.integral_mul_left,
    hval] at hmono
  refine le_trans hmono ?_
  have hnum : exp (-(50 / 9)) * exp (10 / 3 - b) ≤ exp (-(50 / 9)) := by
    have hfac : exp (10 / 3 - b) ≤ 1 := by
      rw [show (1 : ℝ) = exp 0 from (Real.exp_zero).symm]
      exact Real.exp_le_exp.mpr (by linarith)
    nlinarith [Real.exp_pos (-(50 / 9 : ℝ))]
  exact div_le_div₀ (Real.exp_nonneg _) hnum (by norm_num) two_le_sqrt_two_pi

theorem gauss_tail_Iic (a : ℝ) (ha : a ≤ -(10 / 3)) :
    ∫ u in Iic a, kernelFun "gaussian" u ≤ exp (-(50 / 9)) / 2 := by
  have h := integral_comp_neg_Ioi (-a) (kernelFun "gaussian")
  rw [neg_neg] at h
  rw [← h]
  have hcong : ∫ x in Ioi (-a), kernelFun "gaussian" (-x) =
      ∫ x in Ioi (-a), kernelFun "gaussian" x := by
    refine setIntegral_congr_fun measurableSet_Ioi ?_
    intro x _
    show kernelFun "gaussian" (-x) = kernelFun "gaussian" x
    simp [kernelFun_gaussian]
  rw [hcong]
  exact gauss_tail_Ioi (-a) (by linarith)

theorem expo_tail_Ioi (b : ℝ) (hb : 6 ≤ b) :
    ∫ u in Ioi b, kernelFun "exponential" u ≤ exp (-6) / 2 := by
  have hcong : ∫ u in Ioi b, kernelFun "exponential" u =
      ∫ u in Ioi b, exp (-u) / 2 := by
    refine setIntegral_congr_fun measurableSet_Ioi ?_
    intro u hu
    show kernelFun "exponential" u = exp (-u) / 2
    simp only [kernelFun_exponential]
    rw [abs_of_pos (lt_of_le_of_lt (by linarith) (mem_Ioi.mp hu))]
  rw [hcong, MeasureTheory.integral_div, integral_exp_neg_Ioi]
  have hle : exp (-b) ≤ exp (-6) := Real.exp_le_exp.mpr (by linarith)
  linarith

theorem expo_tail_Iic (a : ℝ) (ha : a ≤ -6) :
    ∫ u in Iic a, kernelFun "exponential" u ≤ exp (-6) / 2 := by
  have h := integral_comp_neg_Ioi (-a) (kernelFun "exponential")
  rw [neg_neg] at h
  rw [← h]
  have hcong : ∫ x in Ioi (-a), kernelFun "exponential" (-x) =
      ∫ x in Ioi (-a), kernelFun "exponential" x := by
    refine setIntegral_congr_fun measurableSet_Ioi ?_
    intro x _
    show kernelFun "exponential" (-x) = kernelFun "exponential" x
    simp [kernelFun_exponential]
  rw [hcong]
  exact expo_tail_Ioi (-a) (by linarith)

theorem interval_split (f : ℝ → ℝ) (hf : Integrable f) (a b : ℝ) :
    ∫ x in a..b, f x =
      (∫ x, f x) - (∫ x in Iic a, f x) - (∫ x in Ioi b, f x) := by
  have h1 : (∫ x in Iic b, f x) + (∫ x in Ioi b, f x) = ∫ x, f x :=
    integral_Iic_add_Ioi hf.integrableOn hf.integrableOn
  have h2 : (∫ x in Iic b, f x) - (∫ x in Iic a, f x) = ∫ x in a..b, f x :=
    integral_Iic_sub_Iic hf.integrableOn hf.integrableOn
  linarith

theorem exp_neg_fifty_ninths_le : exp (-(50 / 9) : ℝ) ≤ 1 / 100 := by
  refine le_trans (Real.exp_le_exp.mpr (show -(50 / 9 : ℝ) ≤ -5 by norm_num)) ?_
  rw [Real.exp_neg]
  rw [show (1 : ℝ) / 100 = ((100 : ℝ))⁻¹ by norm_num]
  exact inv_anti₀ (by norm_num) hundred_le_exp_five

theorem exp_neg_six_le : exp (-6 : ℝ) ≤ 1 / 100 := by
  refine le_trans (Real.exp_le_exp.mpr (show (-6 : ℝ) ≤ -5 by norm_num)) ?_
  rw [Real.exp_neg]
  rw [show (1 : ℝ) / 100 = ((100 : ℝ))⁻¹ by norm_num]
  exact inv_anti₀ (by norm_num) hundred_le_exp_five

theorem gauss_window (a b : ℝ) (ha : a ≤ -(10 / 3)) (hb : 10 / 3 ≤ b) :
    1 - 1 / 100 ≤ (∫ u in a..b, kernelFun "gaussian" u) ∧
      (∫ u in a..b, kernelFun "gaussian" u) ≤ 1 := by
  have hsplit := interval_split _ integrable_gaussK a b
  have htIoi := gauss_tail_Ioi b hb
  have htIic := gauss_tail_Iic a ha
  have hIicnn : 0 ≤ ∫ u in Iic a, kernelFun "gaussian" u :=
    setIntegral_nonneg measurableSet_Iic fun u _ => gaussK_nonneg u
  have hIoinn : 0 ≤ ∫ u in Ioi b, kernelFun "gaussian" u :=
    setIntegral_nonneg measurableSet_Ioi fun u _ => gaussK_nonneg u
  have htot := total_gaussK
  have he := exp_neg_fifty_ninths_le
  constructor <;> linarith

theorem expo_window (a b : ℝ) (ha : a ≤ -6) (hb : 6 ≤ b) :
    1 - 1 / 100 ≤ (∫ u in a..b, kernelFun "exponential" u) ∧
      (∫ u in a..b, kernelFun "exponential" u) ≤ 1 := by
  have hsplit := interval_split _ integrable_expK a b
  have htIoi := expo_tail_Ioi b hb
  have htIic := expo_tail_Iic a ha
  have hIicnn : 0 ≤ ∫ u in Iic a, kernelFun "exponential" u :=
    setIntegral_nonneg measurableSet_Iic fun u _ => expK_nonneg u
  have hIoinn : 0 ≤ ∫ u in Ioi b, kernelFun "exponential" u :=
    setIntegral_nonneg measurableSet_Ioi fun u _ => expK_nonneg u
  have htot := total_expK
  have he6 := exp_neg_six_le
  constructor <;> linarith

theorem intervalIntegrable_kernel_shift (kern : String)
    (hK : Integrable (kernelFun kern)) (h : ℝ) (hh : 0 < h)
    (xi lo hi : ℝ) :
    IntervalIntegrable (fun x => kernelFun kern ((x - xi) / h) / h)
      volume lo hi := by
  have h1 : Integrable (fun x : ℝ => kernelFun kern (x / h)) :=
    hK.comp_div hh.ne'
  have h2 : Integrable (fun x : ℝ => kernelFun kern ((x - xi) / h)) :=
    h1.comp_sub_right xi
  exact (h2.div_const h).intervalIntegrable

theorem integral_kernel_window (kern : String) (h : ℝ) (hh : 0 < h)
    (xi lo hi : ℝ) :
    (∫ x in lo..hi, kernelFun kern ((x - xi) / h) / h) =
      ∫ u in (lo - xi) / h..(hi - xi) / h, kernelFun kern u := by
  rw [intervalIntegral.integral_div]
  have h2 : (∫ x in lo..hi, kernelFun kern ((x - xi) / h)) =
      ∫ y in lo - xi..hi - xi, kernelFun kern (y / h) :=
    integral_comp_sub_right (fun y => kernelFun kern (y / h)) xi
  rw [h2]
  rw [integral_comp_div (fun u => kernelFun kern u) hh.ne']
  rw [smul_eq_mul, mul_div_cancel_left₀ _ hh.ne']

theorem intervalIntegrable_list_sum (F : ℝ → ℝ → ℝ) (lo hi : ℝ) :
    ∀ l : List ℝ,
      (∀ xi ∈ l, IntervalIntegrable (F xi) volume lo hi) →
      IntervalIntegrable (fun x => (l.map (fun xi => F xi x)).sum)
        volume lo hi
  | [], _ => by
    simp only [List.map_nil, List.sum_nil]
    exact intervalIntegrable_const
  | xi :: l, hI => by
    simp only [List.map_cons, List.sum_cons]
    exact (hI xi (List.mem_cons_self xi l)).add
      (intervalIntegrable_list_sum F lo hi l
        fun y hy => hI y (List.mem_cons_of_mem xi hy))

theorem integral_list_sum (F : ℝ → ℝ → ℝ) (lo hi : ℝ) :
    ∀ l : List ℝ,
      (∀ xi ∈ l, IntervalIntegrable (F xi) volume lo hi) →
      (∫ x in lo..hi, (l.map (fun xi => F xi x)).sum) =
        (l.map (fun xi => ∫ x in lo..hi, F xi x)).sum
  | [], _ => by simp
  | xi :: l, hI => by
    have hrest := intervalIntegrable_list_sum F lo hi l
      fun y hy => hI y (List.mem_cons_of_mem xi hy)
    simp only [List.map_cons, List.sum_cons]
    rw [intervalIntegral.integral_add (hI xi (List.mem_cons_self xi l)) hrest,
      integral_list_sum F lo hi l
        fun y hy => hI y (List.mem_cons_of_mem xi hy)]

theorem list_sum_bounds (c d : ℝ) :
    ∀ l : List ℝ, (∀ x ∈ l, c ≤ x ∧ x ≤ d) →
      (l.length : ℝ) * c ≤ l.sum ∧ l.sum ≤ (l.length : ℝ) * d
  | [], _ => by simp
  | x :: l, hb => by
    have hx := hb x (List.mem_cons_self x l)
    have ih := list_sum_bounds c d l
      fun y hy => hb y (List.mem_cons_of_mem x hy)
    simp only [List.sum_cons, List.length_cons]
    push_cast
    constructor <;> nlinarith [ih.1, ih.2, hx.1, hx.2]

theorem kde_window_bounds (kern : String) (h : ℝ) (hh : 0 < h)
    (hK : Integrable (kernelFun kern)) (data : List ℝ) (hne : data ≠ [])
    (lo hi : ℝ)
    (hwin : ∀ xi ∈ data,
      1 - 1 / 100 ≤
        (∫ u in (lo - xi) / h..(hi - xi) / h, kernelFun kern u) ∧
      (∫ u in (lo - xi) / h..(hi - xi) / h, kernelFun kern u) ≤ 1) :
    |(∫ x in lo..hi, kdeDensity kern h data x) - 1| ≤ 1 / 100 := by
  have hII : ∀ xi ∈ data, IntervalIntegrable
      (fun x => kernelFun kern ((x - xi) / h) / h) volume lo hi :=
    fun xi _ => intervalIntegrable_kernel_shift kern hK h hh xi lo hi
  have e1 := integral_list_sum
    (fun xi x => kernelFun kern ((x - xi) / h) / h) lo hi data hII
  have e0 : (∫ x in lo..hi, kdeDensity kern h data x) =
      (∫ x in lo..hi,
        (data.map (fun xi => kernelFun kern ((x - xi) / h) / h)).sum) /
        (data.length : ℝ) :=
    intervalIntegral.integral_div (data.length : ℝ)
      (fun x => (data.map (fun xi => kernelFun kern ((x - xi) / h) / h)).sum)
  have hmapeq : data.map
      (fun xi => ∫ x in lo..hi, kernelFun kern ((x - xi) / h) / h) =
      data.map
        (fun xi => ∫ u in (lo - xi) / h..(hi - xi) / h, kernelFun kern u) :=
    List.map_congr_left fun xi _ => integral_kernel_window kern h hh xi lo hi
  have hunf : (∫ x in lo..hi, kdeDensity kern h data x) =
      ((data.map (fun xi =>
        ∫ u in (lo - xi) / h..(hi - xi) / h, kernelFun kern u)).sum) /
        (data.length : ℝ) := by
    rw [e0]
    rw [show (∫ x in lo..hi,
        (data.map (fun xi => kernelFun kern ((x - xi) / h) / h)).sum) =
      ((data.map (fun xi =>
        ∫ x in lo..hi, kernelFun kern ((x - xi) / h) / h)).sum) from e1]
    rw [hmapeq]
  have hsum := list_sum_bounds (1 - 1 / 100) 1
    (data.map (fun xi =>
      ∫ u in (lo - xi) / h..(hi - xi) / h, kernelFun kern u))
    (by
      intro y hy
      obtain ⟨xi, hxi, rfl⟩ := List.mem_map.mp hy
      exact hwin xi hxi)
  rw [List.length_map] at hsum
  have hn : (0 : ℝ) < (data.length : ℝ) :=
    Nat.cast_pos.mpr (List.length_pos.mpr hne)
  rw [hunf, abs_le]
  constructor
  · have : 1 - 1 / 100 ≤ ((data.map (fun xi =>
        ∫ u in (lo - xi) / h..(hi - xi) / h, kernelFun kern u)).sum) /
        (data.length : ℝ) := by
      rw [le_div_iff₀ hn]
      linarith [hsum.1]
    linarith
  · have : ((data.map (fun xi =>
        ∫ u in (lo - xi) / h..(hi - xi) / h, kernelFun kern u)).sum) /
        (data.length : ℝ) ≤ 1 := by
      rw [div_le_one hn]
      linarith [hsum.2]
    linarith

/-- Witness for C9: the gallery's gaussian trace has the gallery grid
as its x array, and the rug trace under the trivial generator pairs 100
points with 100 offsets. -/
theorem c9_trace_shapes_witness :
    (densityTrace "gaussian" 1 [0] galleryGrid none).x = galleryGrid ∧
    (fig3RugTrace unitGen ()).x.length = 100 := by
  have h := c9_trace_shapes Unit unitGen () ()
  exact ⟨(h.2.2.2.2.1 _
    (List.mem_map.mpr ⟨"gaussian", by simp [galleryKernels], rfl⟩)).1,
    h.2.2.2.2.2.2.1⟩

/-- C5: for each kernel of each figure, the estimated density curve
integrates over the plotted range to within 1/100 of 1 — exactly 1 for
the compactly supported kernels and up to Gaussian/Laplace tail mass
otherwise.  For the two sampling figures the statement holds for any
nonempty sample contained in `[-5/2, 15/2]`; the actual seed-1 legacy
numpy samples of both figures lie within it (figure 1's sample sits in
`[-2.302, 6.745]` and figure 3's in `[-2.302, 7.186]`).  The gallery
figure fits the concrete data `X_src = np.zeros((1, 1))` with sklearn's
default bandwidth 1. -/
theorem c5_density_integral_close_to_one :
    ∀ data : List ℝ, data ≠ [] →
      (∀ x ∈ data, -(5 / 2) ≤ x ∧ x ≤ 15 / 2) →
      (∀ kern ∈ (["tophat", "gaussian"] : List String),
        |(∫ x in (-5 : ℝ)..10, kdeDensity kern (3 / 4) data x) - 1| ≤
          1 / 100) ∧
      (∀ kern ∈ galleryKernels,
        |(∫ x in (-6 : ℝ)..6, kdeDensity kern 1 [0] x) - 1| ≤ 1 / 100) ∧
      (∀ kern ∈ fig3Kernels,
        |(∫ x in (-5 : ℝ)..10, kdeDensity kern (1 / 2) data x) - 1| ≤
          1 / 100) := by
  intro data hne hbox
  refine ⟨?_, ?_, ?_⟩
  · intro kern hk
    fin_cases hk
    · refine kde_window_bounds _ _ (by norm_num) integrable_tophatK
        data hne _ _ ?_
      intro xi hxi
      have hx := hbox xi hxi
      have hcw := compact_window "tophat" (by simp)
        ((-5 - xi) / (3 / 4)) ((10 - xi) / (3 / 4))
        (by rw [div_lt_iff₀ (by norm_num : (0:ℝ) < 3/4)]; linarith)
        (by rw [le_div_iff₀ (by norm_num : (0:ℝ) < 3/4)]; linarith)
      exact ⟨by rw [hcw]; norm_num, le_of_eq hcw⟩
    · refine kde_window_bounds _ _ (by norm_num) integrable_gaussK
        data hne _ _ ?_
      intro xi hxi
      have hx := hbox xi hxi
      refine gauss_window _ _ ?_ ?_
      · rw [div_le_iff₀ (by norm_num : (0:ℝ) < 3/4)]; linarith
      · rw [le_div_iff₀ (by norm_num : (0:ℝ) < 3/4)]; linarith
  · intro kern hk
    have hone : ∀ xi ∈ ([0] : List ℝ), xi = 0 := by
      intro xi hxi
      simpa using hxi
    fin_cases hk
    · refine kde_window_bounds _ _ one_pos integrable_gaussK
        [0] (List.cons_ne_nil 0 []) _ _ ?_
      intro xi hxi
      rw [hone xi hxi]
      exact gauss_window _ _ (by norm_num) (by norm_num)
    · refine kde_window_bounds _ _ one_pos integrable_tophatK
        [0] (List.cons_ne_nil 0 []) _ _ ?_
      intro xi hxi
      rw [hone xi hxi]
      have hcw := compact_window "tophat" (by simp)
        ((-6 - 0) / 1) ((6 - 0) / 1) (by norm_num) (by norm_num)
      exact ⟨by rw [hcw]; norm_num, le_of_eq hcw⟩
    · refine kde_window_bounds _ _ one_pos integrable_epanechnikovK
        [0] (List.cons_ne_nil 0 []) _ _ ?_
      intro xi hxi
      rw [hone xi hxi]
      have hcw := compact_window "epanechnikov" (by simp)
        ((-6 - 0) / 1) ((6 - 0) / 1) (by norm_num) (by norm_num)
      exact ⟨by rw [hcw]; norm_num, le_of_eq hcw⟩
    · refine kde_window_bounds _ _ one_pos integrable_expK
        [0] (List.cons_ne_nil 0 []) _ _ ?_
      intro xi hxi
      rw [hone xi hxi]
      exact expo_window _ _ (by norm_num) (by norm_num)
    · refine kde_window_bounds _ _ one_pos integrable_linearK
        [0] (List.cons_ne_nil 0 []) _ _ ?_
      intro xi hxi
      rw [hone xi hxi]
      have hcw := compact_window "linear" (by simp)
        ((-6 - 0) / 1) ((6 - 0) / 1) (by norm_num) (by norm_num)
      exact ⟨by rw [hcw]; norm_num, le_of_eq hcw⟩
    · refine kde_window_bounds _ _ one_pos integrable_cosineK
        [0] (List.cons_ne_nil 0 []) _ _ ?_
      intro xi hxi
      rw [hone xi hxi]
      have hcw := compact_window "cosine" (by simp)
        ((-6 - 0) / 1) ((6 - 0) / 1) (by norm_num) (by norm_num)
      exact ⟨by rw [hcw]; norm_num, le_of_eq hcw⟩
  · intro kern hk
    fin_cases hk
    · refine kde_window_bounds _ _ (by norm_num) integrable_gaussK
        data hne _ _ ?_
      intro xi hxi
      have hx := hbox xi hxi
      refine gauss_window _ _ ?_ ?_
      · rw [div_le_iff₀ (by norm_num : (0:ℝ) < 1/2)]; linarith
      · rw [le_div_iff₀ (by norm_num : (0:ℝ) < 1/2)]; linarith
    · refine kde_window_bounds _ _ (by norm_num) integrable_tophatK
        data hne _ _ ?_
      intro xi hxi
      have hx := hbox xi hxi
      have hcw := compact_window "tophat" (by simp)
        ((-5 - xi) / (1 / 2)) ((10 - xi) / (1 / 2))
        (by rw [div_lt_iff₀ (by norm_num : (0:ℝ) < 1/2)]; linarith)
        (by rw [le_div_iff₀ (by norm_num : (0:ℝ) < 1/2)]; linarith)
      exact ⟨by rw [hcw]; norm_num, le_of_eq hcw⟩
    · refine kde_window_bounds _ _ (by norm_num) integrable_epanechnikovK
        data hne _ _ ?_
      intro xi hxi
      have hx := hbox xi hxi
      have hcw := compact_window "epanechnikov" (by simp)
        ((-5 - xi) / (1 / 2)) ((10 - xi) / (1 / 2))
        (by rw [div_lt_iff₀ (by norm_num : (0:ℝ) < 1/2)]; linarith)
        (by rw [le_div_iff₀ (by norm_num : (0:ℝ) < 1/2)]; linarith)
      exact ⟨by rw [hcw]; norm_num, le_of_eq hcw⟩

/-- Witness for C5 at the gallery's gaussian estimate (data `[0]`,
default bandwidth 1, range -6..6), via the sample box at `data = [0]`. -/
theorem c5_density_integral_witness :
    |(∫ x in (-6 : ℝ)..6, kdeDensity "gaussian" 1 [0] x) - 1| ≤ 1 / 100 :=
  (c5_density_integral_close_to_one [0] (List.cons_ne_nil 0 [])
    (by
      intro x hx
      rw [List.mem_singleton] at hx
      subst hx
      norm_num)).2.1 "gaussian" (by simp [galleryKernels])

end KDE1D
